import Mathlib

/-!
Verification of the outlook-exporter-tui repository core:
path sanitization (`storage/path_utils.py` and `main.py`),
folder-path fallback ladder, unique-path resolution, duplicate
tracking (`core/duplicates.py`), the filter engine
(`filters/base.py`, `filters/email_filters.py`, `main.message_matches`),
and the effect discipline of the export strategies and startup checks
in `main.py` and the `exporters` package.

Strings are modelled as `List Char`; the Python string methods used by
the source (`strip`, `rstrip`, slicing, `re.sub` over a fixed character
class, `lower`) are embedded for the ASCII fragment, which is the
fragment all claims and counterexamples live in.
-/

/-- Python whitespace (what `str.strip()` with no argument strips) on
the Latin-1 range: space, the controls 0x09-0x0d and 0x1c-0x1f, next
line 0x85 and no-break space 0xa0. Higher Unicode space characters are
outside the modelled fragment. -/
def pyIsSpace (c : Char) : Bool :=
  c = ' ' || ('\x09' ≤ c && c ≤ '\x0d') || ('\x1c' ≤ c && c ≤ '\x1f') ||
  c = '\x85' || c = '\xa0'

/-- The nine characters replaced by `_` in `sanitize_for_filesystem`
(`re.sub` over the class backslash, slash, colon, star, question mark,
double quote, less, greater, pipe). -/
def isInvalidPathChar (c : Char) : Bool :=
  c = '\\' || c = '/' || c = ':' || c = '*' || c = '?' ||
  c = '\"' || c = '<' || c = '>' || c = '|'

/-- Python `value.rstrip(chars)`: drop characters satisfying `p` from the
right end of the string. -/
def pyRstrip (p : Char → Bool) (s : List Char) : List Char :=
  (s.reverse.dropWhile p).reverse

/-- Python `value.strip()`: drop whitespace from both ends. -/
def pyStrip (s : List Char) : List Char :=
  pyRstrip pyIsSpace (s.dropWhile pyIsSpace)

/-- Embedding of `sanitize_for_filesystem(value, max_length)` from
`src/outlook_exporter/storage/path_utils.py` lines 11-48: strip, replace
the invalid Windows path characters by underscore, right-strip dots and
spaces, truncate to `max_length` re-right-stripping underscore, dot and
space, and fall back to the placeholder underscore when empty. -/
def sanitize_for_filesystem (value : List Char) (maxLength : Nat) : List Char :=
  let v1 := pyStrip value
  let v2 := v1.map (fun c => if isInvalidPathChar c then '_' else c)
  let v3 := pyRstrip (fun c => c = '.' || c = ' ') v2
  let v4 := if maxLength < v3.length
            then pyRstrip (fun c => c = '_' || c = '.' || c = ' ') (v3.take maxLength)
            else v3
  if v4 = [] then ['_'] else v4

/-- Embedding of `sanitize_for_fs(value, max_length)` from `main.py`
lines 171-183. The statements are translated one by one from that
function; they happen to coincide step for step with the ones of
`sanitize_for_filesystem`, which claim C10 records. -/
def sanitize_for_fs (value : List Char) (maxLength : Nat) : List Char :=
  let v1 := pyStrip value
  let v2 := v1.map (fun c => if isInvalidPathChar c then '_' else c)
  let v3 := pyRstrip (fun c => c = '.' || c = ' ') v2
  let v4 := if maxLength < v3.length
            then pyRstrip (fun c => c = '_' || c = '.' || c = ' ') (v3.take maxLength)
            else v3
  if v4 = [] then ['_'] else v4

/-! Stage abbreviations for the sanitizer, used by the proofs.
`sanCore` is the value after strip, character replacement and the first
right-strip; `sanFinish` is the truncation step followed by the
empty-string fallback. `sanitize_eq_finish` records that the embedding
is their composition (definitional). -/

def sanCore (s : List Char) : List Char :=
  pyRstrip (fun c => c = '.' || c = ' ')
    ((pyStrip s).map (fun c => if isInvalidPathChar c then '_' else c))

def sanFinish (v3 : List Char) (n : Nat) : List Char :=
  let v4 := if n < v3.length
            then pyRstrip (fun c => c = '_' || c = '.' || c = ' ') (v3.take n)
            else v3
  if v4 = [] then ['_'] else v4

/-! Folder-path builder (`create_email_folder_path`, path_utils.py
lines 50-96). Paths are modelled as a base string plus a list of
relative segments; `pathStr` renders the joined path the way
`str(Path(base) / seg1 / seg2 / ...)` does for nonempty relative
segments (one separator character per join). The md5 hexdigest of
hashlib is an external library primitive and is passed in as a
function parameter `md5hex`. -/

def pathStr (base : List Char) (segs : List (List Char)) : List Char :=
  segs.foldl (fun acc seg => acc ++ '/' :: seg) base

/-- Embedding of `create_email_folder_path(base_dir, sender_email,
subject, date_str, subject_max_length)`: returns the list of segments
placed under `base_dir`. The nested length checks reproduce the source
ladder: primary sender/subject/date path, then shorter subject, then
hashed subject segment `subj_` plus the first 8 hex characters of the
md5 of the original unsanitized subject, then the flat
`sanitize(sender_date, 100)` segment. -/
def create_email_folder_path (md5hex : List Char → List Char)
    (base_dir sender_email subject date_str : List Char)
    (subject_max_length : Nat) : List (List Char) :=
  let sender := sanitize_for_filesystem sender_email 120
  let subject_sanitized := sanitize_for_filesystem subject subject_max_length
  if 200 < (pathStr base_dir [sender, subject_sanitized, date_str]).length then
    let short_subject := sanitize_for_filesystem subject 50
    if 200 < (pathStr base_dir [sender, short_subject, date_str]).length then
      let subject_hash := (md5hex subject).take 8
      if 200 < (pathStr base_dir
          [sender, "subj_".toList ++ subject_hash, date_str]).length then
        [sanitize_for_filesystem (sender ++ '_' :: date_str) 100]
      else [sender, "subj_".toList ++ subject_hash, date_str]
    else [sender, short_subject, date_str]
  else [sender, subject_sanitized, date_str]

/-- Folder ladder written from the words of the claim and of spec
section 4.2, independently of the source: produce
`base/sanitize(sender,120)/sanitize(subject,n)/date` when the path
string has length at most 200; otherwise apply, in order and each step
only if the previous result still exceeds 200 characters, the shorter
subject, the hashed subject segment over the original unsanitized
subject, and the flat `sanitize(sender_date, 100)` segment. -/
def folderLadderSpecSegs (md5hex : List Char → List Char)
    (base_dir sender_email subject date_str : List Char)
    (n : Nat) : List (List Char) :=
  let sender := sanitize_for_filesystem sender_email 120
  let primary := [sender, sanitize_for_filesystem subject n, date_str]
  if (pathStr base_dir primary).length ≤ 200 then primary
  else
    let step1 := [sender, sanitize_for_filesystem subject 50, date_str]
    if (pathStr base_dir step1).length ≤ 200 then step1
    else
      let step2 := [sender, "subj_".toList ++ (md5hex subject).take 8, date_str]
      if (pathStr base_dir step2).length ≤ 200 then step2
      else [sanitize_for_filesystem (sender ++ '_' :: date_str) 100]

/-! Unique-path resolution (`ensure_unique_path`, path_utils.py lines
98-122). A path is modelled by the `stem` and `suffix` of its filename
(the decomposition `Path.stem` and `Path.suffix` provide); filesystem
existence is a caller-supplied predicate `ex` over rendered filenames.
The unbounded while loop of the source carries explicit fuel; `none`
means the fuel ran out, and the theorem supplies sufficient fuel. -/

def numberedName (stem suffix : List Char) (i : Nat) : List Char :=
  stem ++ '_' :: (Nat.toDigits 10 i) ++ suffix

def uniqueLoop (ex : List Char → Bool) (stem suffix : List Char) :
    Nat → Nat → Option (List Char)
  | _, 0 => none
  | counter, fuel + 1 =>
    if ex (numberedName stem suffix counter)
    then uniqueLoop ex stem suffix (counter + 1) fuel
    else some (numberedName stem suffix counter)

/-- Embedding of `ensure_unique_path(path)`: if the path does not
exist it is returned unchanged, otherwise counters `_1`, `_2`, ... are
inserted before the extension until a non-existing name is found. -/
def ensure_unique_path (ex : List Char → Bool) (stem suffix : List Char)
    (fuel : Nat) : Option (List Char) :=
  if ex (stem ++ suffix) then uniqueLoop ex stem suffix 1 fuel
  else some (stem ++ suffix)

/-! Duplicate tracker (`core/duplicates.py`). The state `seen_hashes`
is a Python dict from hash string to the list of saved paths; it is
embedded as an association list in insertion order, since Python dicts
preserve insertion order. Reachable states are exactly the results of
folding a history of `register_file` events over the empty tracker
(`clear` resets to the empty tracker, so states after a `clear` are
covered by the history since that `clear`). -/

/-- Embedding of `DuplicateTracker.register_file(file_path, file_hash)`
(duplicates.py lines 85-96): create an empty bucket for an unseen hash
(appended at the end, as dict insertion does), then append the path to
the bucket of the hash. -/
def register_file : List (List Char × List (List Char)) → List Char →
    List Char → List (List Char × List (List Char))
  | [], p, h => [(h, [p])]
  | (k, ps) :: rest, p, h =>
    if k = h then (k, ps ++ [p]) :: rest
    else (k, ps) :: register_file rest p h

/-- Embedding of `DuplicateTracker.is_duplicate(file_hash)`
(duplicates.py lines 74-83): membership of the hash in `seen_hashes`. -/
def is_duplicate (t : List (List Char × List (List Char)))
    (h : List Char) : Bool :=
  t.any (fun kv => decide (kv.1 = h))

structure TrackerStats where
  unique_files : Nat
  total_files : Nat
  duplicate_files : Nat
  deriving DecidableEq

/-- Embedding of `DuplicateTracker.get_statistics()` (duplicates.py
lines 109-126): number of keys, total number of tracked paths, and
their difference. -/
def get_statistics (t : List (List Char × List (List Char))) :
    TrackerStats where
  unique_files := t.length
  total_files := (t.map (fun kv => kv.2.length)).sum
  duplicate_files := (t.map (fun kv => kv.2.length)).sum - t.length

/-- Tracker state reached by a history of registration events, each a
hash paired with a path, starting from the fresh tracker. -/
def applyEvents (evs : List (List Char × List Char)) :
    List (List Char × List (List Char)) :=
  evs.foldl (fun t e => register_file t e.2 e.1) []

/-! Filter engine (`filters/base.py`, `filters/email_filters.py`,
`main.message_matches`). `EmailMetadata` mirrors the dataclass of
`core/models.py`; datetimes are modelled as integer timestamps. -/

/-- Python `str.lower` on the ASCII fragment (`Char.toLower` maps the
letters A-Z to a-z and leaves everything else unchanged). -/
def pyLower (s : List Char) : List Char :=
  s.map Char.toLower

structure EmailMetadata where
  subject : List Char
  sender_email : List Char
  sender_name : List Char
  received_time : Int
  sent_time : Option Int
  to_recipients : List Char
  cc_recipients : List Char
  body : List Char
  html_body : List Char

/-- Embedding of `SenderFilter` (email_filters.py lines 46-72): the
constructor stores the lowercased sender list, and `matches` tests
membership of the lowercased sender address in that list. -/
def SenderFilter_matches (senders : List (List Char))
    (email : EmailMetadata) : Bool :=
  decide (pyLower email.sender_email ∈ senders.map pyLower)

/-- Embedding of the sender clause of `main.message_matches` (main.py
lines 135-139): when `args.sender` is `None` or the empty list the whole
clause is skipped (the message is not rejected on sender grounds);
otherwise the message passes iff some configured entry compares equal to
the sender address after lowercasing both sides. -/
def message_matches_senderClause (senders : List (List Char))
    (sender_email : List Char) : Bool :=
  if senders = [] then true
  else senders.any (fun s => decide (pyLower sender_email = pyLower s))

/-- Embedding of `CompositeFilter.matches` (filters/base.py lines
33-63): the conjunction over the component predicates. Component
filters are embedded as predicates on `EmailMetadata`. -/
def CompositeFilter_matches (filters : List (EmailMetadata → Bool))
    (email : EmailMetadata) : Bool :=
  filters.all (fun f => f email)

/-! Filesystem effects of the export strategies. The export functions
of `main.py` are embedded as pure functions that return their result
together with the list of filesystem writes they perform; external
outcomes (COM save calls succeeding, file existence, hash values) are
parameters. `FsEffect.processMessages` is the marker for entering the
message-processing phase in `run_export`. -/

inductive FsEffect where
  | mkdirP (p : List (List Char))
  | fileWrite (p : List (List Char))
  | moveFile (src dst : List (List Char))
  | processMessages
  deriving DecidableEq

/-- Effects that create or move a file (directory creation excluded). -/
def isFileEffect : FsEffect → Bool
  | .fileWrite _ => true
  | .moveFile _ _ => true
  | _ => false

/-- Decomposition of a filename into `Path.stem` and `Path.suffix`: the
suffix starts at the last dot when that dot is neither the first nor
the last character, and is empty otherwise. The two parts always
concatenate back to the name. -/
def pathSplit (name : List Char) : List Char × List Char :=
  let tailLen := (name.reverse.takeWhile (fun c => !(c = '.'))).length
  if tailLen = name.length then (name, [])
  else
    let i := name.length - tailLen - 1
    if 0 < i ∧ i < name.length - 1 then (name.take i, name.drop i)
    else (name, [])

/-- Embedding of the duplicate-branch rename loop of
`main.save_attachment` (main.py lines 268-271): unlike
`ensure_unique_path`, the name is rebuilt from the current candidate at
each step, so collisions produce name_1, name_1_2, and so on. The
unbounded while loop carries fuel. -/
def dupRenameLoop (ex : List Char → Bool) :
    List Char → Nat → Nat → Option (List Char)
  | _, _, 0 => none
  | name, counter, fuel + 1 =>
    if ex name then
      dupRenameLoop ex
        ((pathSplit name).1 ++ '_' :: Nat.toDigits 10 counter ++ (pathSplit name).2)
        (counter + 1) fuel
    else some name

/-- Embedding of `save_mail` (main.py lines 314-345). `subjectRaw` and
`senderRaw` are the field values after the safe_get defaults, and
`dateFolder` the formatted received date; `saveOk` abstracts whether
the external `message.SaveAs` call succeeds. The target directory is
created (parents included) before the dry-run check, exactly as in the
source (line 330 precedes line 335); the dry-run branch logs the
destination and returns it, which `process_messages` counts as a
successful save. -/
def save_mail (dryRun saveOk : Bool)
    (subjectRaw senderRaw dateFolder : List Char) (subjMax : Nat) :
    Option (List (List Char)) × List FsEffect :=
  let subject := sanitize_for_fs subjectRaw subjMax
  let sender := sanitize_for_fs senderRaw 120
  let targetDir := [sender, subject, dateFolder]
  let filename := sanitize_for_fs subject 255 ++ ".msg".toList
  let destPath := targetDir ++ [filename]
  if dryRun then (some destPath, [FsEffect.mkdirP targetDir])
  else if saveOk then
    (some destPath, [FsEffect.mkdirP targetDir, FsEffect.fileWrite destPath])
  else (none, [FsEffect.mkdirP targetDir])

/-- Embedding of `save_markdown` (main.py lines 355-497), restricted to
its filesystem behavior: when markdownify is unavailable it returns
immediately; otherwise the target directory is created before the
dry-run check (line 393 precedes line 398). The body conversion and
document construction after the dry-run check touch no files except
the final write, abstracted by `writeOk`. -/
def save_markdown (mdAvailable dryRun writeOk : Bool)
    (subjectRaw senderEmailRaw dateFolder : List Char) (subjMax : Nat) :
    Option (List (List Char)) × List FsEffect :=
  if mdAvailable = false then (none, [])
  else
    let subject := sanitize_for_fs subjectRaw subjMax
    let sender := sanitize_for_fs senderEmailRaw 120
    let targetDir := [sender, subject, dateFolder]
    let filename := sanitize_for_fs subject 255 ++ ".md".toList
    let destPath := targetDir ++ [filename]
    if dryRun then (some destPath, [FsEffect.mkdirP targetDir])
    else if writeOk then
      (some destPath, [FsEffect.mkdirP targetDir, FsEffect.fileWrite destPath])
    else (none, [FsEffect.mkdirP targetDir])

/-- Embedding of `save_attachment` (main.py lines 203-286): inline
heuristic before any filesystem access; the two-step length ladder for
the target directory (this function, unlike `create_email_folder_path`,
has no length-based flat fallback - its flat fallback fires only on a
directory-creation OSError, which is not modelled: directory creation
is assumed to succeed); directory creation before the dry-run check
(line 237 precedes line 248); temp-file write, duplicate decision by
membership of the externally computed `fileHash` in the `seenHashes`
registry, and the two rename loops. The non-duplicate rename loop
(lines 277-283) rebuilds every candidate from the original destination
name, which is exactly the candidate sequence of `ensure_unique_path`,
reused here; the duplicate branch uses `dupRenameLoop`. The registry
update is not tracked here. -/
def save_attachment (md5hex : List Char → List Char) (base_dir : List Char)
    (dryRun includeInline : Bool) (position attType : Int)
    (subjectRaw senderRaw dateFolder filenameRaw : List Char)
    (subjMax : Nat) (dupSub : List Char) (tempOk : Bool)
    (fileHash : List Char) (seenHashes : List (List Char))
    (ex : List (List Char) → Bool) (fuel : Nat) :
    Option (List (List Char)) × List FsEffect :=
  if includeInline = false ∧ position = 0 ∧ attType = 5 then (none, [])
  else
    let subject := sanitize_for_fs subjectRaw subjMax
    let sender := sanitize_for_fs senderRaw 120
    let targetDir :=
      if 200 < (pathStr base_dir [sender, subject, dateFolder]).length then
        let shortSubject := sanitize_for_fs subjectRaw 50
        if 200 < (pathStr base_dir [sender, shortSubject, dateFolder]).length then
          [sender, "subj_".toList ++ (md5hex subjectRaw).take 8, dateFolder]
        else [sender, shortSubject, dateFolder]
      else [sender, subject, dateFolder]
    let filename := sanitize_for_fs filenameRaw 255
    let destPath := targetDir ++ [filename]
    if dryRun then (some destPath, [FsEffect.mkdirP targetDir])
    else
      let tempPath := targetDir ++ [filename ++ ".tmp".toList]
      if tempOk = false then (none, [FsEffect.mkdirP targetDir])
      else if fileHash ∈ seenHashes then
        let dupDir := targetDir ++ [dupSub]
        match dupRenameLoop (fun nm => ex (dupDir ++ [nm])) filename 1 fuel with
        | none =>
          (none, [FsEffect.mkdirP targetDir, FsEffect.fileWrite tempPath,
                  FsEffect.mkdirP dupDir])
        | some nm =>
          (some (dupDir ++ [nm]),
           [FsEffect.mkdirP targetDir, FsEffect.fileWrite tempPath,
            FsEffect.mkdirP dupDir, FsEffect.moveFile tempPath (dupDir ++ [nm])])
      else
        match ensure_unique_path (fun nm => ex (targetDir ++ [nm]))
            (pathSplit filename).1 (pathSplit filename).2 fuel with
        | none =>
          (none, [FsEffect.mkdirP targetDir, FsEffect.fileWrite tempPath])
        | some nm =>
          (some (targetDir ++ [nm]),
           [FsEffect.mkdirP targetDir, FsEffect.fileWrite tempPath,
            FsEffect.moveFile tempPath (targetDir ++ [nm])])

/-- Embedding of `BaseExporter._create_base_folder` (exporters/base.py
lines 48-72): compute the folder with `create_email_folder_path` and
create it only when not in dry-run. (The source passes a
`received_time` keyword that the callee signature names `date_str`;
the model takes the date string directly.) -/
def createBaseFolder (md5hex : List Char → List Char) (dryRun : Bool)
    (output_dir sender_email subject date_str : List Char)
    (subjMax : Nat) : List (List Char) × List FsEffect :=
  let segs := create_email_folder_path md5hex output_dir sender_email subject
    date_str subjMax
  (segs, if dryRun then [] else [FsEffect.mkdirP segs])

/-! Startup checks of `run_export` (main.py lines 590-614).
`setup_logging` (lines 77-98) runs first; when a log file is
configured it creates the parent directory of the log file and the
logging FileHandler creates and opens the log file itself. Only then
are the two configuration conflicts checked; everything past the
checks - COM initialization, `process_messages`, the open-folder
step - is abstracted into the single `processMessages` marker and a
zero exit code, since the claim concerns only the conflict branch. -/

def setup_logging (logFile : Option (List (List Char))) : List FsEffect :=
  match logFile with
  | none => []
  | some p => [FsEffect.mkdirP p.dropLast, FsEffect.fileWrite p]

def run_export (withAtt withoutAtt exportMail exportMarkdown : Bool)
    (logFile : Option (List (List Char))) : Nat × List FsEffect :=
  let logFx := setup_logging logFile
  if withAtt = true ∧ withoutAtt = true then (2, logFx)
  else if exportMail = true ∧ exportMarkdown = true then (2, logFx)
  else (0, logFx ++ [FsEffect.processMessages])

/-! Exporters package (`exporters/attachment.py`, `exporters/message.py`)
against `ExportResult` (core/models.py lines 107-126), for claim C8. -/

structure ExportResult where
  messages_processed : Nat
  messages_matched : Nat
  attachments_saved : Nat
  duplicates_found : Nat
  errors : List (List Char)
  deriving DecidableEq

/-- Outcome of handling one attachment inside
`AttachmentExporter.export`: the per-item call either returns True
(saved), returns False (inline skip, filename failure, or a SaveAsFile
failure that is logged with a warning only), or raises - for example
the nonexistent `compute_hash` method or a hash error - in which case
the per-item handler logs at debug level and continues. -/
inductive AttachmentOutcome where
  | savedOk
  | savedFalse
  | raised
  deriving DecidableEq

def attachmentSavedCount : List AttachmentOutcome → Nat
  | [] => 0
  | .savedOk :: rest => attachmentSavedCount rest + 1
  | .savedFalse :: rest => attachmentSavedCount rest
  | .raised :: rest => attachmentSavedCount rest

/-- Embedding of the counting and error behavior of
`AttachmentExporter.export` (attachment.py lines 37-81): when the
attachment collection is inaccessible one error is recorded and `None`
returned; otherwise every item is visited in order regardless of
earlier failures, `attachments_saved` grows by the number of items
whose save returned True, and no per-item failure is appended to the
error list. The returned flag is whether a folder path (rather than
`None`) is returned, which the source does iff at least one attachment
was saved. -/
def AttachmentExporter_export (accessOk : Bool)
    (items : List AttachmentOutcome) (r : ExportResult) :
    Bool × ExportResult :=
  if accessOk = false then
    (false, { r with errors := r.errors ++ ["Failed to access attachments".toList] })
  else
    (decide (0 < attachmentSavedCount items),
     { r with attachments_saved := r.attachments_saved + attachmentSavedCount items })

/-- Embedding of `MessageExporter.export` (message.py lines 28-67),
after folder creation. In dry-run the source increments
`attachments_saved` and returns the destination. Otherwise, when the
external `SaveAs` call succeeds, the source executes
`result.files_exported += 1` inside the same try block - but
`ExportResult` (core/models.py) defines no `files_exported` field, so
reading the attribute raises AttributeError, which the `except` for
save failures catches: an error string is appended and `None` is
returned, with no counter changed. A failing `SaveAs` takes the same
handler. -/
def MessageExporter_export (dryRun saveOk : Bool) (subject : List Char)
    (r : ExportResult) : Option (List Char) × ExportResult :=
  let filename := sanitize_for_filesystem subject 255 ++ ".msg".toList
  if dryRun then
    (some filename, { r with attachments_saved := r.attachments_saved + 1 })
  else if saveOk then
    (none, { r with errors := r.errors ++ ["Failed to save email".toList] })
  else
    (none, { r with errors := r.errors ++ ["Failed to save email".toList] })

/-! Theorems: the helper lemmas, the per-claim theorems with their
witnesses and counterexamples, and concrete evaluation checks. -/

example : sanitize_for_filesystem "My File: Test.txt".toList 255
    = "My File_ Test.txt".toList := by decide

example : sanitize_for_filesystem "  spaces  ".toList 255 = "spaces".toList := by
  decide

example : sanitize_for_filesystem [] 10 = ['_'] := by decide

example : sanitize_for_filesystem "abcdef".toList 3 = "abc".toList := by decide

example : sanitize_for_filesystem ".a\tb".toList 3 = ['.', 'a', '\t'] := by decide

example : sanitize_for_filesystem "x".toList 0 = ['_'] := by decide

example :
    ensure_unique_path
      (fun nm => decide (nm = "f.ext".toList
        ∨ nm = numberedName "f".toList ".ext".toList 1))
      "f".toList ".ext".toList 5
      = some (numberedName "f".toList ".ext".toList 2) := by decide

/-! Helper lemmas about `dropWhile`, `pyRstrip` and `head?`. -/

theorem head?_of_dropWhile {α : Type} (p : α → Bool) :
    ∀ (l : List α) (c : α), (l.dropWhile p).head? = some c → p c = false
  | [], c, h => by simp [List.dropWhile] at h
  | a :: t, c, h => by
    by_cases hp : p a = true
    · exact head?_of_dropWhile p t c (by simpa [List.dropWhile, hp] using h)
    · have hac : a = c := by simpa [List.dropWhile, hp] using h
      subst hac
      simpa using hp

theorem exists_append_dropWhile {α : Type} (p : α → Bool) :
    ∀ l : List α, ∃ t, l = t ++ l.dropWhile p
  | [] => ⟨[], rfl⟩
  | a :: l => by
    by_cases hp : p a = true
    · obtain ⟨t, ht⟩ := exists_append_dropWhile p l
      exact ⟨a :: t, by simp [List.dropWhile, hp]; exact ht⟩
    · exact ⟨[], by simp [List.dropWhile, hp]⟩

theorem exists_pyRstrip_append (p : Char → Bool) (l : List Char) :
    ∃ t, l = pyRstrip p l ++ t := by
  obtain ⟨t, ht⟩ := exists_append_dropWhile p l.reverse
  refine ⟨t.reverse, ?_⟩
  have h2 := congrArg List.reverse ht
  simpa [pyRstrip, List.reverse_append] using h2

theorem head?_append_left {α : Type} (l₁ t : List α) (c : α)
    (h : l₁.head? = some c) : (l₁ ++ t).head? = some c := by
  cases l₁ <;> simp_all

theorem mem_pyRstrip {p : Char → Bool} {l : List Char} {c : Char}
    (h : c ∈ pyRstrip p l) : c ∈ l := by
  obtain ⟨t, ht⟩ := exists_pyRstrip_append p l
  have h2 := List.mem_append_left t h
  rwa [← ht] at h2

theorem length_pyRstrip_le (p : Char → Bool) (l : List Char) :
    (pyRstrip p l).length ≤ l.length := by
  obtain ⟨t, ht⟩ := exists_pyRstrip_append p l
  have h2 := congrArg List.length ht
  simp [List.length_append] at h2
  omega

theorem revHead?_pyRstrip (p : Char → Bool) (l : List Char) (c : Char)
    (h : (pyRstrip p l).reverse.head? = some c) : p c = false := by
  have h2 : (pyRstrip p l).reverse = l.reverse.dropWhile p := by
    simp [pyRstrip]
  rw [h2] at h
  exact head?_of_dropWhile p _ c h

theorem sanitize_eq_finish (s : List Char) (n : Nat) :
    sanitize_for_filesystem s n = sanFinish (sanCore s) n := rfl

theorem head?_pyRstrip {p : Char → Bool} {l : List Char} {c : Char}
    (h : (pyRstrip p l).head? = some c) : l.head? = some c := by
  obtain ⟨t, ht⟩ := exists_pyRstrip_append p l
  have h2 := head?_append_left _ t c h
  rwa [← ht] at h2

theorem head?_take {α : Type} {l : List α} {n : Nat} {c : α}
    (h : (l.take n).head? = some c) : l.head? = some c := by
  have h2 := head?_append_left _ (l.drop n) c h
  rwa [List.take_append_drop] at h2

theorem head?_map_eq {α β : Type} (f : α → β) (l : List α) :
    (l.map f).head? = l.head?.map f := by
  cases l <;> rfl

/-! Properties of the sanitizer stages. -/

theorem sanFinish_length_le (v3 : List Char) (n : Nat) (hn : 1 ≤ n) :
    (sanFinish v3 n).length ≤ n := by
  simp only [sanFinish]
  by_cases h3 : n < v3.length
  · simp only [if_pos h3]
    by_cases h4 : pyRstrip (fun c => c = '_' || c = '.' || c = ' ') (v3.take n) = []
    · simp only [if_pos h4, List.length_singleton]
      exact hn
    · rw [if_neg h4]
      have h1 := length_pyRstrip_le (fun c => c = '_' || c = '.' || c = ' ') (v3.take n)
      have h2 : (v3.take n).length ≤ n := by simp
      omega
  · simp only [if_neg h3]
    by_cases h4 : v3 = []
    · simp only [if_pos h4, List.length_singleton]
      exact hn
    · rw [if_neg h4]
      omega

theorem sanCore_no_invalid (s : List Char) :
    ∀ c ∈ sanCore s, isInvalidPathChar c = false := by
  intro c hc
  have hc2 := mem_pyRstrip hc
  obtain ⟨a, _, ha⟩ := List.mem_map.mp hc2
  by_cases hia : isInvalidPathChar a = true
  · rw [if_pos hia] at ha
    subst ha
    decide
  · rw [Bool.not_eq_true] at hia
    rw [if_neg (by simp [hia])] at ha
    subst ha
    exact hia

theorem sanFinish_no_invalid (v3 : List Char) (n : Nat)
    (hv3 : ∀ c ∈ v3, isInvalidPathChar c = false) :
    ∀ c ∈ sanFinish v3 n, isInvalidPathChar c = false := by
  intro c hc
  simp only [sanFinish] at hc
  by_cases h3 : n < v3.length
  · rw [if_pos h3] at hc
    by_cases h4 : pyRstrip (fun c => c = '_' || c = '.' || c = ' ') (v3.take n) = []
    · rw [if_pos h4] at hc
      simp at hc
      subst hc
      decide
    · rw [if_neg h4] at hc
      exact hv3 c (List.take_subset n v3 (mem_pyRstrip hc))
  · rw [if_neg h3] at hc
    by_cases h4 : v3 = []
    · rw [if_pos h4] at hc
      simp at hc
      subst hc
      decide
    · rw [if_neg h4] at hc
      exact hv3 c hc

theorem sanCore_head_not_space (s : List Char) (c : Char)
    (h : (sanCore s).head? = some c) : pyIsSpace c = false := by
  have h2 := head?_pyRstrip h
  rw [head?_map_eq] at h2
  obtain ⟨a, ha, hac⟩ := Option.map_eq_some'.mp h2
  simp only [pyStrip] at ha
  have ha2 : ((s.dropWhile pyIsSpace).head?) = some a := head?_pyRstrip ha
  have ha3 := head?_of_dropWhile pyIsSpace s a ha2
  by_cases hia : isInvalidPathChar a = true
  · rw [if_pos hia] at hac
    subst hac
    decide
  · rw [if_neg hia] at hac
    subst hac
    exact ha3

theorem sanFinish_head_not_space (v3 : List Char) (n : Nat) (c : Char)
    (hv3 : ∀ d, v3.head? = some d → pyIsSpace d = false)
    (h : (sanFinish v3 n).head? = some c) : pyIsSpace c = false := by
  simp only [sanFinish] at h
  by_cases h3 : n < v3.length
  · rw [if_pos h3] at h
    by_cases h4 : pyRstrip (fun c => c = '_' || c = '.' || c = ' ') (v3.take n) = []
    · rw [if_pos h4] at h
      simp at h
      subst h
      decide
    · rw [if_neg h4] at h
      exact hv3 c (head?_take (head?_pyRstrip h))
  · rw [if_neg h3] at h
    by_cases h4 : v3 = []
    · rw [if_pos h4] at h
      simp at h
      subst h
      decide
    · rw [if_neg h4] at h
      exact hv3 c h

theorem sanFinish_last_ok (v3 : List Char) (n : Nat) (c : Char)
    (hv3 : ∀ d, v3.reverse.head? = some d → (d = '.' || d = ' ') = false)
    (h : (sanFinish v3 n).reverse.head? = some c) : c ≠ '.' ∧ c ≠ ' ' := by
  simp only [sanFinish] at h
  by_cases h3 : n < v3.length
  · rw [if_pos h3] at h
    by_cases h4 : pyRstrip (fun c => c = '_' || c = '.' || c = ' ') (v3.take n) = []
    · rw [if_pos h4] at h
      simp at h
      subst h
      exact ⟨by decide, by decide⟩
    · rw [if_neg h4] at h
      have h5 := revHead?_pyRstrip _ _ _ h
      simp at h5
      exact ⟨h5.1.2, h5.2⟩
  · rw [if_neg h3] at h
    by_cases h4 : v3 = []
    · rw [if_pos h4] at h
      simp at h
      subst h
      exact ⟨by decide, by decide⟩
    · rw [if_neg h4] at h
      have h5 := hv3 c h
      simp at h5
      exact h5

theorem sanCore_last_ok (s : List Char) (d : Char)
    (h : (sanCore s).reverse.head? = some d) : (d = '.' || d = ' ') = false := by
  exact revHead?_pyRstrip _ _ _ h

theorem sanitize_nil_eq (n : Nat) : sanitize_for_filesystem [] n = ['_'] := by
  have h : sanCore [] = [] := by decide
  rw [sanitize_eq_finish, sanFinish, h]
  simp

/-- C1 (amended): for every string `s` and bound `n ≥ 1`,
`sanitize_for_filesystem s n` has length at most `n`, contains none of
the characters backslash, slash, colon, star, question mark, double
quote, less, greater, pipe, does not start with whitespace, does not end
with a dot or a space, and `sanitize_for_filesystem "" n` is the
placeholder underscore. (The original claim is refuted by
`sanitize_for_filesystem_claim_fails`: the result can start with a dot
and end with a tab, and at bound 0 the placeholder has length 1.) -/
theorem sanitize_for_filesystem_spec (s : List Char) (n : Nat) (hn : 1 ≤ n) :
    (sanitize_for_filesystem s n).length ≤ n
    ∧ (∀ c ∈ sanitize_for_filesystem s n, isInvalidPathChar c = false)
    ∧ (∀ c, (sanitize_for_filesystem s n).head? = some c → pyIsSpace c = false)
    ∧ (∀ c, (sanitize_for_filesystem s n).reverse.head? = some c → c ≠ '.' ∧ c ≠ ' ')
    ∧ sanitize_for_filesystem [] n = ['_'] := by
  rw [sanitize_eq_finish]
  refine ⟨sanFinish_length_le _ n hn, ?_, ?_, ?_, sanitize_nil_eq n⟩
  · exact sanFinish_no_invalid _ n (sanCore_no_invalid s)
  · intro c hc
    exact sanFinish_head_not_space _ n c (sanCore_head_not_space s) hc
  · intro c hc
    exact sanFinish_last_ok _ n c (sanCore_last_ok s) hc

/-- C1 witness: the amended property instantiated at the concrete input
"a:b" with bound 2. -/
theorem sanitize_for_filesystem_spec_witness :
    (sanitize_for_filesystem ('a' :: ':' :: 'b' :: []) 2).length ≤ 2 :=
  (sanitize_for_filesystem_spec ('a' :: ':' :: 'b' :: []) 2 (by decide)).1

/-- C1 counterexample: the claim as stated is false. The input ".a\tb"
with bound 3 sanitizes to ".a\t", which starts with a dot and ends with
a tab (whitespace), and at bound 0 the input "x" sanitizes to the
placeholder underscore whose length 1 exceeds the bound. -/
theorem sanitize_for_filesystem_claim_fails :
    sanitize_for_filesystem ('.' :: 'a' :: '\t' :: 'b' :: []) 3
      = ('.' :: 'a' :: '\t' :: [])
    ∧ (sanitize_for_filesystem ('x' :: []) 0).length = 1 := by
  exact ⟨by decide, by decide⟩

/-- C10: the two sanitizer implementations - `sanitize_for_fs` in
`main.py` and `sanitize_for_filesystem` in `storage/path_utils.py` -
are extensionally equal: they return the same string for every value
and bound. The two embeddings above were each translated from their own
source function; the sources coincide statement for statement, so the
equality is definitional. -/
theorem sanitize_for_fs_eq_sanitize_for_filesystem
    (value : List Char) (maxLength : Nat) :
    sanitize_for_fs value maxLength = sanitize_for_filesystem value maxLength :=
  rfl

/-- C4: the folder builder realizes exactly the graduated fallback
ladder described by the spec - primary path when its string length is at
most 200, and each fallback step applied only when the previous result
still exceeds 200 characters, so the ladder never applies a fallback
step unnecessarily. -/
theorem create_email_folder_path_spec (md5hex : List Char → List Char)
    (base_dir sender_email subject date_str : List Char) (n : Nat) :
    create_email_folder_path md5hex base_dir sender_email subject date_str n
      = folderLadderSpecSegs md5hex base_dir sender_email subject date_str n := by
  simp only [create_email_folder_path, folderLadderSpecSegs]
  by_cases h1 : (pathStr base_dir [sanitize_for_filesystem sender_email 120,
      sanitize_for_filesystem subject n, date_str]).length ≤ 200
  · rw [if_neg (by omega), if_pos h1]
  · rw [if_pos (by omega), if_neg h1]
    by_cases h2 : (pathStr base_dir [sanitize_for_filesystem sender_email 120,
        sanitize_for_filesystem subject 50, date_str]).length ≤ 200
    · rw [if_neg (by omega), if_pos h2]
    · rw [if_pos (by omega), if_neg h2]
      by_cases h3 : (pathStr base_dir [sanitize_for_filesystem sender_email 120,
          "subj_".toList ++ (md5hex subject).take 8, date_str]).length ≤ 200
      · rw [if_neg (by omega), if_pos h3]
      · rw [if_pos (by omega), if_neg h3]

theorem uniqueLoop_finds (ex : List Char → Bool) (stem suffix : List Char)
    (N : Nat) :
    ∀ (fuel counter : Nat), counter ≤ N + 1 → N + 1 < counter + fuel →
    (∀ i, counter ≤ i → i ≤ N → ex (numberedName stem suffix i) = true) →
    ex (numberedName stem suffix (N + 1)) = false →
    uniqueLoop ex stem suffix counter fuel
      = some (numberedName stem suffix (N + 1)) := by
  intro fuel
  induction fuel with
  | zero =>
    intro counter h1 h2 _ _
    omega
  | succ fuel ih =>
    intro counter h1 h2 hbusy hfree
    by_cases hc : counter = N + 1
    · subst hc
      simp only [uniqueLoop, hfree]
      simp
    · have hcN : counter ≤ N := by omega
      have hex : ex (numberedName stem suffix counter) = true :=
        hbusy counter le_rfl hcN
      simp only [uniqueLoop, hex]
      simp only [if_true]
      exact ih (counter + 1) (by omega) (by omega)
        (fun i hi1 hi2 => hbusy i (by omega) hi2) hfree

/-- C6: `ensure_unique_path` returns the first non-existing path in the
sequence path, path_1, path_2, ... (counter inserted before the
extension). When the path itself does not exist it is returned
unchanged - so a second call without creating the file returns the same
path again - and when it exists together with the numbered siblings 1
through N while sibling N+1 is free, sibling N+1 is returned. -/
theorem ensure_unique_path_spec (ex : List Char → Bool)
    (stem suffix : List Char) (N fuel : Nat)
    (hfuel : N + 1 ≤ fuel)
    (hbusy : ∀ i, 1 ≤ i → i ≤ N → ex (numberedName stem suffix i) = true)
    (hfree : ex (numberedName stem suffix (N + 1)) = false) :
    ensure_unique_path ex stem suffix fuel
      = some (if ex (stem ++ suffix)
              then numberedName stem suffix (N + 1)
              else stem ++ suffix) := by
  simp only [ensure_unique_path]
  by_cases hp : ex (stem ++ suffix) = true
  · rw [if_pos hp, if_pos hp]
    exact uniqueLoop_finds ex stem suffix N fuel 1 (by omega) (by omega)
      (fun i h1 h2 => hbusy i h1 h2) hfree
  · rw [if_neg hp, if_neg hp]

/-- C6 witness: with only the sibling `f_1.ext` existing, the original
name `f.ext` is free and `ensure_unique_path` returns it unchanged. -/
theorem ensure_unique_path_spec_witness :
    ensure_unique_path
      (fun nm => decide (nm = numberedName "f".toList ".ext".toList 1))
      "f".toList ".ext".toList 3
      = some ("f".toList ++ ".ext".toList) := by
  have h := ensure_unique_path_spec
    (fun nm => decide (nm = numberedName "f".toList ".ext".toList 1))
    "f".toList ".ext".toList 1 3 (by omega)
    (by
      intro i h1 h2
      have hi : i = 1 := by omega
      subst hi
      simp)
    (by decide)
  rw [h]
  decide

theorem register_file_total (t : List (List Char × List (List Char)))
    (p h : List Char) :
    ((register_file t p h).map (fun kv => kv.2.length)).sum
      = (t.map (fun kv => kv.2.length)).sum + 1 := by
  induction t with
  | nil => simp [register_file]
  | cons kv rest ih =>
    obtain ⟨k, ps⟩ := kv
    by_cases hk : k = h
    · simp [register_file, hk]
      omega
    · simp [register_file, hk, ih]
      omega

theorem is_duplicate_iff (t : List (List Char × List (List Char)))
    (h : List Char) :
    is_duplicate t h = true ↔ h ∈ t.map Prod.fst := by
  simp [is_duplicate, List.any_eq_true, List.mem_map]

theorem register_file_keys (t : List (List Char × List (List Char)))
    (p h : List Char) :
    (register_file t p h).map Prod.fst
      = if is_duplicate t h then t.map Prod.fst
        else t.map Prod.fst ++ [h] := by
  induction t with
  | nil => simp [register_file, is_duplicate]
  | cons kv rest ih =>
    obtain ⟨k, ps⟩ := kv
    by_cases hk : k = h
    · simp [register_file, hk, is_duplicate]
    · simp only [register_file, if_neg hk]
      by_cases hd : is_duplicate rest h = true
      · have hd2 : is_duplicate ((k, ps) :: rest) h = true := by
          simp [is_duplicate] at hd ⊢
          exact Or.inr hd
        rw [if_pos hd2]
        simp [ih, hd]
      · have hd2 : ¬ is_duplicate ((k, ps) :: rest) h = true := by
          simp [is_duplicate] at hd ⊢
          exact ⟨hk, hd⟩
        rw [if_neg hd2]
        simp only [Bool.not_eq_true] at hd
        simp [ih, hd]

theorem applyEvents_total (evs : List (List Char × List Char)) :
    ∀ t, ((evs.foldl (fun t e => register_file t e.2 e.1) t).map
        (fun kv => kv.2.length)).sum
      = (t.map (fun kv => kv.2.length)).sum + evs.length := by
  induction evs with
  | nil => intro t; simp
  | cons e evs ih =>
    intro t
    simp only [List.foldl_cons, List.length_cons]
    rw [ih (register_file t e.2 e.1), register_file_total]
    omega

theorem applyEvents_keys_mem (evs : List (List Char × List Char)) :
    ∀ t h, h ∈ ((evs.foldl (fun t e => register_file t e.2 e.1) t).map
        Prod.fst)
      ↔ h ∈ t.map Prod.fst ∨ h ∈ evs.map Prod.fst := by
  induction evs with
  | nil => intro t h; simp
  | cons e evs ih =>
    intro t h
    simp only [List.foldl_cons]
    rw [ih (register_file t e.2 e.1)]
    have hstep : h ∈ (register_file t e.2 e.1).map Prod.fst
        ↔ h ∈ t.map Prod.fst ∨ h = e.1 := by
      rw [register_file_keys]
      by_cases hd : is_duplicate t e.1 = true
      · rw [if_pos hd]
        constructor
        · exact Or.inl
        · rintro (hm | rfl)
          · exact hm
          · exact (is_duplicate_iff t e.1).mp hd
      · rw [if_neg hd]
        simp
    rw [hstep]
    simp [List.mem_map]
    tauto

theorem applyEvents_keys_nodup (evs : List (List Char × List Char)) :
    ∀ t, (t.map Prod.fst).Nodup →
    ((evs.foldl (fun t e => register_file t e.2 e.1) t).map Prod.fst).Nodup := by
  induction evs with
  | nil => intro t ht; simpa using ht
  | cons e evs ih =>
    intro t ht
    simp only [List.foldl_cons]
    refine ih (register_file t e.2 e.1) ?_
    rw [register_file_keys]
    by_cases hd : is_duplicate t e.1 = true
    · rw [if_pos hd]
      exact ht
    · rw [if_neg hd]
      rw [List.nodup_append]
      refine ⟨ht, List.nodup_singleton _, ?_⟩
      intro a ha hb
      simp at hb
      subst hb
      exact hd ((is_duplicate_iff t e.1).mpr ha)

theorem applyEvents_unique (evs : List (List Char × List Char)) :
    (applyEvents evs).length = (evs.map Prod.fst).dedup.length := by
  have hnd : ((applyEvents evs).map Prod.fst).Nodup :=
    applyEvents_keys_nodup evs [] (by simp)
  have hmem : ∀ h, h ∈ (applyEvents evs).map Prod.fst
      ↔ h ∈ (evs.map Prod.fst).dedup := by
    intro h
    rw [List.mem_dedup]
    simpa using applyEvents_keys_mem evs [] h
  have hlen : ((applyEvents evs).map Prod.fst).length
      = (evs.map Prod.fst).dedup.length := by
    have h1 := List.toFinset_card_of_nodup hnd
    have h2 := List.toFinset_card_of_nodup ((evs.map Prod.fst).nodup_dedup)
    have h3 : ((applyEvents evs).map Prod.fst).toFinset
        = (evs.map Prod.fst).dedup.toFinset := by
      ext a
      simp only [List.mem_toFinset]
      exact hmem a
    rw [← h1, ← h2, h3]
  simpa using hlen

/-- C5: duplicate-tracker scenario and statistics. In a fresh tracker,
after registering hash H with path P1 the hash is reported duplicate;
after registering H again with P2 the statistics report one duplicate
file; and in every state reachable by a history of registrations,
`get_statistics` returns the number of distinct registered hashes as
`unique_files`, the total number of registered paths as `total_files`,
and their difference as `duplicate_files`. -/
theorem duplicate_tracker_spec (H P1 P2 : List Char)
    (evs : List (List Char × List Char)) :
    is_duplicate (applyEvents [(H, P1)]) H = true
    ∧ (get_statistics (applyEvents [(H, P1), (H, P2)])).duplicate_files = 1
    ∧ (get_statistics (applyEvents evs)).unique_files
        = (evs.map Prod.fst).dedup.length
    ∧ (get_statistics (applyEvents evs)).total_files = evs.length
    ∧ (get_statistics (applyEvents evs)).duplicate_files
        = evs.length - (evs.map Prod.fst).dedup.length
    ∧ (evs.map Prod.fst).dedup.length ≤ evs.length := by
  have htot : (get_statistics (applyEvents evs)).total_files = evs.length := by
    simp only [get_statistics, applyEvents]
    rw [applyEvents_total evs []]
    simp
  have huniq : (get_statistics (applyEvents evs)).unique_files
      = (evs.map Prod.fst).dedup.length := by
    simp only [get_statistics]
    exact applyEvents_unique evs
  refine ⟨?_, ?_, huniq, htot, ?_, ?_⟩
  · simp [applyEvents, register_file, is_duplicate]
  · simp [applyEvents, register_file, get_statistics]
  · have hd : (get_statistics (applyEvents evs)).duplicate_files
        = (get_statistics (applyEvents evs)).total_files
          - (get_statistics (applyEvents evs)).unique_files := by
      simp [get_statistics]
    rw [hd, htot, huniq]
  · have hs := (List.dedup_sublist (evs.map Prod.fst)).length_le
    simpa using hs

/-- C2 counterexample: the claim states that an empty configured sender
list matches every email, but `SenderFilter.matches` with the empty
list tests membership in an empty list and rejects every email. -/
theorem SenderFilter_empty_rejects :
    SenderFilter_matches []
      { subject := [], sender_email := "a@x.com".toList, sender_name := []
        received_time := 0, sent_time := none, to_recipients := []
        cc_recipients := [], body := [], html_body := [] } = false := by
  decide

/-- C2 (amended): `SenderFilter.matches` accepts an email iff its
sender address equals some configured entry after lowercasing both
sides - in particular with an empty list it matches no email - while
the sender clause of `main.message_matches` accepts every message when
the configured list is empty and otherwise accepts iff some entry
matches case-insensitively. -/
theorem sender_filter_spec (senders : List (List Char))
    (e : EmailMetadata) (se : List Char) :
    (SenderFilter_matches senders e = true
      ↔ ∃ s ∈ senders, pyLower e.sender_email = pyLower s)
    ∧ message_matches_senderClause [] se = true
    ∧ (senders ≠ [] →
        (message_matches_senderClause senders se = true
          ↔ ∃ s ∈ senders, pyLower se = pyLower s)) := by
  refine ⟨?_, by simp [message_matches_senderClause], ?_⟩
  · simp only [SenderFilter_matches, decide_eq_true_eq, List.mem_map]
    constructor
    · rintro ⟨s, hs, hh⟩
      exact ⟨s, hs, hh.symm⟩
    · rintro ⟨s, hs, hh⟩
      exact ⟨s, hs, hh.symm⟩
  · intro hne
    simp [message_matches_senderClause, hne, List.any_eq_true]

/-- C2 witness: the amended clause semantics instantiated at a
concrete one-entry list and an upper-case sender address. -/
theorem sender_filter_spec_witness :
    message_matches_senderClause ["a@x.com".toList] "A@X.COM".toList = true := by
  have h := (sender_filter_spec ["a@x.com".toList]
      { subject := [], sender_email := [], sender_name := []
        received_time := 0, sent_time := none, to_recipients := []
        cc_recipients := [], body := [], html_body := [] }
      "A@X.COM".toList).2.2 (by simp)
  exact h.mpr ⟨"a@x.com".toList, by simp, by decide⟩

/-- C3: a composite filter over the empty predicate list matches every
email, a composite filter matches iff every component predicate
individually matches (pure AND), and the result is independent of the
evaluation order (invariant under permutation of the component list). -/
theorem CompositeFilter_matches_spec
    (filters filters2 : List (EmailMetadata → Bool)) (email : EmailMetadata)
    (hperm : filters.Perm filters2) :
    CompositeFilter_matches [] email = true
    ∧ (CompositeFilter_matches filters email = true
        ↔ ∀ f ∈ filters, f email = true)
    ∧ CompositeFilter_matches filters email
        = CompositeFilter_matches filters2 email := by
  refine ⟨rfl, by simp [CompositeFilter_matches, List.all_eq_true], ?_⟩
  simp only [CompositeFilter_matches]
  rw [Bool.eq_iff_iff]
  simp only [List.all_eq_true]
  constructor
  · intro hall f hf
    exact hall f (hperm.mem_iff.mpr hf)
  · intro hall f hf
    exact hall f (hperm.mem_iff.mp hf)

/-- C3 witness: the theorem applied at a concrete two-element filter
list and its swap. -/
theorem CompositeFilter_matches_spec_witness :
    CompositeFilter_matches []
      { subject := [], sender_email := [], sender_name := []
        received_time := 0, sent_time := none, to_recipients := []
        cc_recipients := [], body := [], html_body := [] } = true :=
  (CompositeFilter_matches_spec
    [fun _ => true, fun _ => false] [fun _ => false, fun _ => true]
    { subject := [], sender_email := [], sender_name := []
      received_time := 0, sent_time := none, to_recipients := []
      cc_recipients := [], body := [], html_body := [] }
    (List.Perm.swap _ _ _)).1

/-- C7 counterexample: the claim states dry-run performs no filesystem
writes, creating no file and no directory; but with dry-run enabled
`save_mail` still creates the sender/subject/date target directory,
because the source calls mkdir before checking the dry-run flag. -/
theorem save_mail_dry_run_creates_directory :
    (save_mail true true "s".toList "a@x".toList "2024-01-15".toList 80).2
      = [FsEffect.mkdirP ["a@x".toList, "s".toList, "2024-01-15".toList]] := by
  decide

/-- C7 (amended): with dry-run enabled, none of the three main.py
strategies creates or moves any file, each logs and returns the
would-be destination path - counted by the caller as if the save
succeeded - but each creates the target directory tree before the
dry-run check; the exporters-package `_create_base_folder` is the one
place that also skips directory creation under dry-run. -/
theorem dry_run_no_file_writes
    (md5hex : List Char → List Char) (base_dir : List Char)
    (saveOk writeOk includeInline tempOk : Bool) (position attType : Int)
    (subjectRaw senderRaw dateFolder filenameRaw : List Char)
    (subjMax : Nat) (dupSub fileHash : List Char)
    (seenHashes : List (List Char)) (ex : List (List Char) → Bool) (fuel : Nat)
    (output_dir sender_email subject date_str : List Char) :
    (∀ e ∈ (save_mail true saveOk subjectRaw senderRaw dateFolder subjMax).2,
        isFileEffect e = false)
    ∧ (save_mail true saveOk subjectRaw senderRaw dateFolder subjMax).1.isSome
        = true
    ∧ (∀ e ∈ (save_markdown true true writeOk subjectRaw senderRaw dateFolder
        subjMax).2, isFileEffect e = false)
    ∧ (save_markdown true true writeOk subjectRaw senderRaw dateFolder
        subjMax).1.isSome = true
    ∧ (∀ e ∈ (save_attachment md5hex base_dir true includeInline position
        attType subjectRaw senderRaw dateFolder filenameRaw subjMax dupSub
        tempOk fileHash seenHashes ex fuel).2, isFileEffect e = false)
    ∧ (includeInline = true →
        (save_attachment md5hex base_dir true includeInline position attType
          subjectRaw senderRaw dateFolder filenameRaw subjMax dupSub tempOk
          fileHash seenHashes ex fuel).1.isSome = true)
    ∧ (createBaseFolder md5hex true output_dir sender_email subject date_str
        subjMax).2 = [] := by
  refine ⟨?_, ?_, ?_, ?_, ?_, ?_, ?_⟩
  · intro e he
    simp [save_mail] at he
    subst he
    rfl
  · simp [save_mail]
  · intro e he
    simp [save_markdown] at he
    subst he
    rfl
  · simp [save_markdown]
  · intro e he
    by_cases hskip : includeInline = false ∧ position = 0 ∧ attType = 5
    · rw [save_attachment, if_pos hskip] at he
      simp at he
    · rw [save_attachment, if_neg hskip] at he
      simp at he
      subst he
      rfl
  · intro hinc
    have hskip : ¬ (includeInline = false ∧ position = 0 ∧ attType = 5) := by
      simp [hinc]
    rw [save_attachment, if_neg hskip]
    simp
  · simp [createBaseFolder]

/-- C7 witness: the amended statement instantiated at concrete inputs,
discharging the inline hypothesis. -/
theorem dry_run_no_file_writes_witness :
    (save_attachment (fun _ => []) [] true true 0 5 [] [] [] [] 80 [] true
        [] [] (fun _ => false) 1).1.isSome = true := by
  have h := dry_run_no_file_writes (fun _ => []) [] true true true true 0 5
    [] [] [] [] 80 [] [] [] (fun _ => false) 1 [] [] [] []
  exact h.2.2.2.2.2.1 rfl

theorem processMessages_not_mem_setup (logFile : Option (List (List Char))) :
    FsEffect.processMessages ∉ setup_logging logFile := by
  cases logFile <;> simp [setup_logging]

/-- C9 counterexample: the claim states the conflicting run aborts
before any file is written; but with both attachment-presence switches
set and a log file configured, `run_export` has already created the
log file (and its parent directory) when it returns exit code 2. -/
theorem run_export_conflict_writes_log :
    (run_export true true false false
        (some ["logs".toList, "run.log".toList])).2
      = [FsEffect.mkdirP ["logs".toList],
         FsEffect.fileWrite ["logs".toList, "run.log".toList]] := by
  decide

/-- C9 (amended): a configuration conflict - both attachment-presence
switches, or both export modes - makes `run_export` return exit code 2
before any message is processed and before any export file is written:
its effects are exactly the logging-setup effects, which create only
the configured log file and its parent directory. -/
theorem run_export_conflict_aborts (wa woa em emd : Bool)
    (logFile : Option (List (List Char)))
    (hconf : (wa = true ∧ woa = true) ∨ (em = true ∧ emd = true)) :
    (run_export wa woa em emd logFile).1 = 2
    ∧ FsEffect.processMessages ∉ (run_export wa woa em emd logFile).2
    ∧ (run_export wa woa em emd logFile).2 = setup_logging logFile := by
  simp only [run_export]
  by_cases hA : wa = true ∧ woa = true
  · rw [if_pos hA]
    exact ⟨rfl, processMessages_not_mem_setup logFile, rfl⟩
  · rw [if_neg hA]
    have hB : em = true ∧ emd = true := by tauto
    rw [if_pos hB]
    exact ⟨rfl, processMessages_not_mem_setup logFile, rfl⟩

/-- C9 witness: the amended statement at a concrete conflicting
configuration. -/
theorem run_export_conflict_aborts_witness :
    (run_export true true false false none).1 = 2 :=
  (run_export_conflict_aborts true true false false none
    (Or.inl ⟨rfl, rfl⟩)).1

/-- C8 (code bug), evaluated at the failing input: a non-dry-run
message export whose SaveAs succeeds returns `None`, increments no
saved counter, and instead appends an error - because the success path
updates a `files_exported` field that `ExportResult` does not define.
The attachment loop, for its part, keeps processing after a failing
item (the later successful item is still counted) but never records
the individual failure in the error list. -/
theorem messageExport_success_not_counted :
    (MessageExporter_export false true "Report".toList
        { messages_processed := 0, messages_matched := 0
          attachments_saved := 0, duplicates_found := 0, errors := [] }).1
      = none
    ∧ (MessageExporter_export false true "Report".toList
        { messages_processed := 0, messages_matched := 0
          attachments_saved := 0, duplicates_found := 0, errors := [] }).2.attachments_saved
      = 0
    ∧ (MessageExporter_export false true "Report".toList
        { messages_processed := 0, messages_matched := 0
          attachments_saved := 0, duplicates_found := 0, errors := [] }).2.errors.length
      = 1
    ∧ (AttachmentExporter_export true
        [AttachmentOutcome.savedFalse, AttachmentOutcome.savedOk]
        { messages_processed := 0, messages_matched := 0
          attachments_saved := 0, duplicates_found := 0, errors := [] }).2.attachments_saved
      = 1
    ∧ (AttachmentExporter_export true
        [AttachmentOutcome.savedFalse, AttachmentOutcome.savedOk]
        { messages_processed := 0, messages_matched := 0
          attachments_saved := 0, duplicates_found := 0, errors := [] }).2.errors
      = [] := by
  decide
